import Mathlib

/-!
Verification of the Kanye_Cleaner web application (src/app.py).

The application is a small Flask app.  We shallowly embed the pieces of
logic the claims are about:

* `extract_playlist_id` — the playlist-identifier extraction routine.
  The Python code uses `re.search` with the two patterns
  `https://open\.spotify\.com/playlist/([a-zA-Z0-9]+)` and
  `spotify:playlist:([a-zA-Z0-9]+)`.  Each pattern is a literal string
  followed by a single greedy capture group `[a-zA-Z0-9]+`; we embed
  `re.search` for patterns of exactly this shape (`matchAt`, `search`).
* `remove_artist_tracks` — the `POST /remove_tracks` handler, embedded as
  a function of the form fields and of the two HTTP responses it may
  receive; its result is the rendered page together with the list of
  DELETE payloads it issues.
* `callback` — the `GET /callback` handler, embedded as a function of the
  query args and the token-endpoint response; the Python function can
  fall through without returning, so the result type is an `Option`.
* `startup_config` — the module-level environment check on
  `SPOTIFY_CLIENT_ID` / `SPOTIFY_CLIENT_SECRET`.

Strings are modelled as `List Char`.  `falsy` models Python truthiness on
an `Optional[str]` (`None` and `""` are falsy).
-/

/-- Python truthiness of an `Optional[str]`: `None` and the empty string
are falsy, every other string is truthy. -/
def falsy : Option (List Char) → Bool
  | none => true
  | some s => s.isEmpty

/-- The character class `[a-zA-Z0-9]` of the regexes (ASCII letters and
digits, exactly what `Char.isAlpha`/`Char.isDigit` test). -/
def isAlnumChar (c : Char) : Bool := c.isAlpha || c.isDigit

/-- `s` begins with the literal `p`. -/
def beginsWith : List Char → List Char → Bool
  | [], _ => true
  | _ :: _, [] => false
  | p :: ps, c :: cs => if p = c then beginsWith ps cs else false

/-- Match the regex `pre([a-zA-Z0-9]+)` at the start of `s`: if `s` begins
with the literal `pre` and at least one alphanumeric character follows,
return the maximal (greedy) alphanumeric run after `pre` — the content of
the capture group. -/
def matchAt (pre s : List Char) : Option (List Char) :=
  if beginsWith pre s then
    if ((s.drop pre.length).takeWhile isAlnumChar).isEmpty then none
    else some ((s.drop pre.length).takeWhile isAlnumChar)
  else
    none

/-- `re.search` for a pattern `pre([a-zA-Z0-9]+)`: try each start
position from the left, first match wins, return the capture group. -/
def search (pre : List Char) : List Char → Option (List Char)
  | [] => matchAt pre []
  | c :: cs =>
    match matchAt pre (c :: cs) with
    | some cap => some cap
    | none => search pre cs

/-- Literal part of `url_pattern` in `extract_playlist_id`. -/
def url_pattern : List Char := "https://open.spotify.com/playlist/".toList

/-- Literal part of `uri_pattern` in `extract_playlist_id`. -/
def uri_pattern : List Char := "spotify:playlist:".toList

/-- `extract_playlist_id` from src/app.py: try the URL pattern, then the
URI pattern, otherwise return the input unchanged. -/
def extract_playlist_id (playlist_input : List Char) : List Char :=
  match search url_pattern playlist_input with
  | some m => m
  | none =>
    match search uri_pattern playlist_input with
    | some m => m
    | none => playlist_input

/-- An artist object of a track item; only the `id` field is consulted. -/
structure Artist where
  id : List Char
deriving DecidableEq

/-- The `track` object of a playlist item: contributing artists, URI. -/
structure TrackObj where
  artists : List Artist
  uri : List Char
deriving DecidableEq

/-- One element of the `items` array of the playlist-tracks response. -/
structure TrackItem where
  track : TrackObj
deriving DecidableEq

/-- One element of the DELETE payload, the dict marking a URI. -/
structure RemoveEntry where
  uri : List Char
deriving DecidableEq

/-- Hard-coded artist id for Kanye West in `remove_artist_tracks`. -/
def kanye_id : List Char := "5K4W6rqBFWDnAN6FQUkS6x".toList

/-- The nested filtering loop of `remove_artist_tracks`: for every track,
for every artist credited on it, if the artist id equals `kanye_id`,
append the track's URI (one append per matching credit). -/
def tracks_to_remove (tracks : List TrackItem) : List RemoveEntry :=
  tracks.flatMap fun track =>
    track.track.artists.flatMap fun artist =>
      if artist.id = kanye_id then [⟨track.track.uri⟩] else []

/-- A track item is credited (in whole or part) to the target artist. -/
def track_matches (t : TrackItem) : Bool :=
  t.track.artists.any fun a => decide (a.id = kanye_id)

/-- The playlist-tracks GET response as consumed by the handler. -/
structure TracksResponse where
  status_code : Nat
  items : List TrackItem
  text : List Char
deriving DecidableEq

/-- The DELETE response as consumed by the handler. -/
structure DeleteResponse where
  status_code : Nat
  text : List Char
deriving DecidableEq

/-- A rendered page: `callback.html` with an error, or
`remove_tracks.html` with a message. -/
inductive Page where
  | callback_error (error : List Char)
  | remove_tracks_msg (message : List Char)
deriving DecidableEq

/-- The `POST /remove_tracks` handler `remove_artist_tracks`, as a
function of the two form fields and the two HTTP responses it may
observe.  Result: the rendered page and the list of DELETE payloads
issued (the code issues at most one). -/
def remove_artist_tracks (access_token playlist_input : Option (List Char))
    (tracks_response : TracksResponse) (remove_response : DeleteResponse) :
    Page × List (List RemoveEntry) :=
  if falsy access_token || falsy playlist_input then
    (.callback_error "Access token or playlist input missing.".toList, [])
  else if (extract_playlist_id (playlist_input.getD [])).isEmpty then
    (.callback_error "Invalid playlist URL or URI.".toList, [])
  else if tracks_response.status_code ≠ 200 then
    (.callback_error
      ("Failed to retrieve playlist tracks: ".toList ++ tracks_response.text), [])
  else if (tracks_to_remove tracks_response.items).isEmpty then
    (.remove_tracks_msg "No tracks to remove.".toList, [])
  else if remove_response.status_code = 200 then
    (.remove_tracks_msg "Tracks removed successfully!".toList,
      [tracks_to_remove tracks_response.items])
  else
    (.callback_error
      ("Failed to remove tracks: ".toList ++ remove_response.text),
      [tracks_to_remove tracks_response.items])

/-- Query args of `GET /callback`; each field is present or absent. -/
structure CallbackArgs where
  error : Option (List Char)
  code : Option (List Char)
deriving DecidableEq

/-- The token-endpoint POST response as consumed by `callback`. -/
structure TokenResponse where
  status_code : Nat
  access_token : List Char
  refresh_token : List Char
  text : List Char
deriving DecidableEq

/-- What the callback handler can return: a rendered `callback.html` with
an error message, or a redirect to `select_playlist` carrying the access
token. -/
inductive CallbackResult where
  | rendered (error : List Char)
  | redirected (access_token : List Char)
deriving DecidableEq

/-- The `GET /callback` handler.  When neither `error` nor `code` is
present the Python function falls off the end and returns `None`, hence
the `Option` result. -/
def callback (args : CallbackArgs) (token_response : TokenResponse) :
    Option CallbackResult :=
  match args.error with
  | some e => some (.rendered e)
  | none =>
    match args.code with
    | some _ =>
      if token_response.status_code = 200 then
        some (.redirected token_response.access_token)
      else
        some (.rendered
          ("Failed to retrieve access token: ".toList ++ token_response.text))
    | none => none

/-- The module-level startup check: `os.getenv` for each secret, then
`raise ValueError` if either is falsy (absent, or set to the empty
string). -/
def startup_config (client_id client_secret : Option (List Char)) :
    Except (List Char) (List Char × List Char) :=
  if falsy client_id || falsy client_secret then
    .error "Client ID or Client Secret not found in environment variables.".toList
  else
    .ok (client_id.getD [], client_secret.getD [])

/-! ### Helper lemmas about the regex-search embedding -/

lemma beginsWith_append (p t : List Char) : beginsWith p (p ++ t) = true := by
  induction p with
  | nil => rfl
  | cons c cs ih => simp [beginsWith, ih]

lemma mem_of_beginsWith {p t : List Char} {c : Char}
    (h : beginsWith p t = true) (hc : c ∈ p) : c ∈ t := by
  induction p generalizing t with
  | nil => simp at hc
  | cons x xs ih =>
    cases t with
    | nil => simp [beginsWith] at h
    | cons y ys =>
      rw [beginsWith] at h
      by_cases hxy : x = y
      · rw [if_pos hxy] at h
        rcases List.mem_cons.mp hc with rfl | hmem
        · exact hxy ▸ List.mem_cons_self _ _
        · exact List.mem_cons_of_mem _ (ih h hmem)
      · rw [if_neg hxy] at h
        exact absurd h (by simp)

lemma head_of_beginsWith {p t : List Char} {c : Char}
    (h : beginsWith p t = true) (hp : p.head? = some c) : t.head? = some c := by
  cases p with
  | nil => simp at hp
  | cons x xs =>
    cases t with
    | nil => simp [beginsWith] at h
    | cons y ys =>
      rw [beginsWith] at h
      by_cases hxy : x = y
      · simp at hp
        simp [← hxy, hp]
      · rw [if_neg hxy] at h
        exact absurd h (by simp)

lemma head?_mem {l : List Char} {c : Char} (h : l.head? = some c) : c ∈ l := by
  cases l <;> simp_all

lemma head?_append_left {α : Type} (a b : List α) (h : a ≠ []) :
    (a ++ b).head? = a.head? := by
  cases a <;> simp_all

lemma drop_append_sub {α : Type} (a b : List α) (n : Nat) :
    (a ++ b).drop n = a.drop n ++ b.drop (n - a.length) := by
  induction a generalizing n with
  | nil => simp
  | cons x xs ih =>
    cases n with
    | zero => simp
    | succ m => simpa [Nat.succ_sub_succ] using ih m

lemma mem_of_drop {α : Type} {l : List α} {n : Nat} {c : α}
    (h : c ∈ l.drop n) : c ∈ l := by
  induction n generalizing l with
  | zero => simpa using h
  | succ m ih =>
    cases l with
    | nil => simp at h
    | cons x xs => exact List.mem_cons_of_mem _ (ih h)

lemma matchAt_some_ne_nil {pre s cap : List Char}
    (h : matchAt pre s = some cap) : cap ≠ [] := by
  rw [matchAt] at h
  by_cases hb : beginsWith pre s
  · rw [if_pos hb] at h
    by_cases he : ((s.drop pre.length).takeWhile isAlnumChar).isEmpty
    · rw [if_pos he] at h
      exact absurd h (by simp)
    · rw [if_neg he] at h
      cases h
      simpa [List.isEmpty_iff] using he
  · simp [hb] at h

lemma search_of_matchAt {pre s cap : List Char}
    (h : matchAt pre s = some cap) : search pre s = some cap := by
  cases s with
  | nil => simpa [search] using h
  | cons c cs => simp [search, h]

lemma search_some_ne_nil {pre s cap : List Char}
    (h : search pre s = some cap) : cap ≠ [] := by
  induction s with
  | nil => exact matchAt_some_ne_nil (by simpa [search] using h)
  | cons c cs ih =>
    rw [search] at h
    cases hm : matchAt pre (c :: cs) with
    | some cap2 =>
      rw [hm] at h
      cases h
      exact matchAt_some_ne_nil hm
    | none =>
      rw [hm] at h
      exact ih h

lemma search_eq_none_of {pre s : List Char}
    (h : ∀ n, beginsWith pre (s.drop n) = false) : search pre s = none := by
  induction s with
  | nil =>
    have h0 := h 0
    simp only [List.drop_nil] at h0
    simp [search, matchAt, h0]
  | cons c cs ih =>
    have h0 := h 0
    simp only [List.drop_zero] at h0
    rw [search]
    have hm : matchAt pre (c :: cs) = none := by simp [matchAt, h0]
    rw [hm]
    exact ih fun n => h (n + 1)

lemma matchAt_prefixed {pre cap : List Char} (hne : cap ≠ [])
    (hal : ∀ c ∈ cap, isAlnumChar c = true) : matchAt pre (pre ++ cap) = some cap := by
  have hdrop : (pre ++ cap).drop pre.length = cap := by
    rw [drop_append_sub, List.drop_length, Nat.sub_self, List.drop_zero, List.nil_append]
  have htake : cap.takeWhile isAlnumChar = cap :=
    List.takeWhile_eq_self_iff.mpr hal
  simp [matchAt, beginsWith_append, hdrop, htake, List.isEmpty_iff, hne]

lemma url_search_uri_none {cap : List Char}
    (hal : ∀ c ∈ cap, isAlnumChar c = true) :
    search url_pattern (uri_pattern ++ cap) = none := by
  apply search_eq_none_of
  intro n
  rw [drop_append_sub]
  by_cases hn : uri_pattern.length ≤ n
  · have hdrop : uri_pattern.drop n = [] := by
      apply List.eq_nil_of_length_eq_zero
      simp only [List.length_drop]
      omega
    rw [hdrop, List.nil_append]
    cases hb : beginsWith url_pattern (cap.drop (n - uri_pattern.length)) with
    | false => rfl
    | true =>
      exfalso
      have hc : (':' : Char) ∈ cap.drop (n - uri_pattern.length) :=
        mem_of_beginsWith hb (by decide)
      exact absurd (hal ':' (mem_of_drop hc)) (by decide)
  · cases hb : beginsWith url_pattern
      (uri_pattern.drop n ++ cap.drop (n - uri_pattern.length)) with
    | false => rfl
    | true =>
      exfalso
      have hne : uri_pattern.drop n ≠ [] := by
        intro he
        have := congrArg List.length he
        simp only [List.length_drop, List.length_nil] at this
        omega
      have hh := head_of_beginsWith hb (show url_pattern.head? = some 'h' by decide)
      rw [head?_append_left _ _ hne] at hh
      exact absurd (mem_of_drop (head?_mem hh)) (by decide)

lemma extract_on_url {cap : List Char} (hne : cap ≠ [])
    (hal : ∀ c ∈ cap, isAlnumChar c = true) :
    extract_playlist_id (url_pattern ++ cap) = cap := by
  have h1 : search url_pattern (url_pattern ++ cap) = some cap :=
    search_of_matchAt (matchAt_prefixed hne hal)
  simp [extract_playlist_id, h1]

lemma extract_on_uri {cap : List Char} (hne : cap ≠ [])
    (hal : ∀ c ∈ cap, isAlnumChar c = true) :
    extract_playlist_id (uri_pattern ++ cap) = cap := by
  have h0 : search url_pattern (uri_pattern ++ cap) = none := url_search_uri_none hal
  have h1 : search uri_pattern (uri_pattern ++ cap) = some cap :=
    search_of_matchAt (matchAt_prefixed hne hal)
  simp [extract_playlist_id, h0, h1]

lemma extract_ne_nil {s : List Char} (h : s ≠ []) : extract_playlist_id s ≠ [] := by
  unfold extract_playlist_id
  cases h1 : search url_pattern s with
  | some m => simpa using search_some_ne_nil h1
  | none =>
    cases h2 : search uri_pattern s with
    | some m => simpa using search_some_ne_nil h2
    | none => simpa using h

/-! ### Helper lemmas about the track filtering loop -/

lemma inner_flatMap_eq_nil (l : List Artist) (e : RemoveEntry)
    (h : ∀ a ∈ l, ¬ (a.id = kanye_id)) :
    (l.flatMap fun a => if a.id = kanye_id then [e] else []) = [] := by
  induction l with
  | nil => rfl
  | cons a l ih =>
    rw [List.flatMap_cons, if_neg (h a (List.mem_cons_self _ _)), List.nil_append]
    exact ih fun x hx => h x (List.mem_cons_of_mem _ hx)

lemma inner_flatMap_eq_singleton (l : List Artist) (e : RemoveEntry)
    (h : (l.filter fun a => decide (a.id = kanye_id)).length ≤ 1) :
    (l.flatMap fun a => if a.id = kanye_id then [e] else []) =
      if l.any (fun a => decide (a.id = kanye_id)) then [e] else [] := by
  induction l with
  | nil => rfl
  | cons a l ih =>
    by_cases ha : a.id = kanye_id
    · have hfa : ((a :: l).filter fun x => decide (x.id = kanye_id)) =
          a :: (l.filter fun x => decide (x.id = kanye_id)) := by
        rw [List.filter_cons_of_pos (by simpa using ha)]
      rw [hfa] at h
      simp only [List.length_cons] at h
      have hf : (l.filter fun x => decide (x.id = kanye_id)) = [] :=
        List.eq_nil_of_length_eq_zero (by omega)
      have hnil : (l.flatMap fun x => if x.id = kanye_id then [e] else []) = [] := by
        apply inner_flatMap_eq_nil
        intro x hx
        have := List.filter_eq_nil_iff.mp hf x hx
        simpa using this
      rw [List.flatMap_cons, if_pos ha, hnil]
      rw [if_pos (by simp [List.any_cons, ha])]
      rfl
    · rw [List.flatMap_cons, if_neg ha, List.nil_append]
      have hfa : ((a :: l).filter fun x => decide (x.id = kanye_id)) =
          (l.filter fun x => decide (x.id = kanye_id)) := by
        rw [List.filter_cons_of_neg (by simpa using ha)]
      rw [hfa] at h
      rw [ih h]
      have : (a :: l).any (fun x => decide (x.id = kanye_id)) =
          l.any (fun x => decide (x.id = kanye_id)) := by
        simp [List.any_cons, ha]
      rw [this]

lemma tracks_to_remove_eq_filter_map (ts : List TrackItem)
    (h : ∀ t ∈ ts, (t.track.artists.filter fun a => decide (a.id = kanye_id)).length ≤ 1) :
    tracks_to_remove ts = (ts.filter track_matches).map fun t => ⟨t.track.uri⟩ := by
  induction ts with
  | nil => rfl
  | cons t ts ih =>
    rw [tracks_to_remove, List.flatMap_cons]
    rw [inner_flatMap_eq_singleton _ _ (h t (List.mem_cons_self _ _))]
    have hrest := ih fun x hx => h x (List.mem_cons_of_mem _ hx)
    rw [tracks_to_remove] at hrest
    rw [hrest]
    by_cases hm : track_matches t
    · rw [List.filter_cons_of_pos hm, List.map_cons]
      rw [if_pos (by simpa [track_matches] using hm)]
      rfl
    · rw [List.filter_cons_of_neg hm, if_neg (by simpa [track_matches] using hm)]
      rfl

lemma inner_flatMap_eq_replicate (l : List Artist) (e : RemoveEntry) :
    (l.flatMap fun a => if a.id = kanye_id then [e] else []) =
      List.replicate (l.filter fun a => decide (a.id = kanye_id)).length e := by
  induction l with
  | nil => rfl
  | cons a l ih =>
    by_cases ha : a.id = kanye_id
    · rw [List.flatMap_cons, if_pos ha, List.filter_cons_of_pos (by simpa using ha),
        List.length_cons, List.replicate_succ, ih]
      rfl
    · rw [List.flatMap_cons, if_neg ha, List.nil_append,
        List.filter_cons_of_neg (by simpa using ha), ih]

lemma tracks_to_remove_eq_replicate (ts : List TrackItem) :
    tracks_to_remove ts = ts.flatMap fun t =>
      List.replicate
        ((t.track.artists.filter fun a => decide (a.id = kanye_id)).length)
        ⟨t.track.uri⟩ := by
  induction ts with
  | nil => rfl
  | cons t ts ih =>
    rw [tracks_to_remove, List.flatMap_cons, List.flatMap_cons,
      inner_flatMap_eq_replicate]
    rw [tracks_to_remove] at ih
    rw [ih]

lemma tracks_to_remove_eq_nil (ts : List TrackItem)
    (h : ∀ t ∈ ts, ∀ a ∈ t.track.artists, ¬ (a.id = kanye_id)) :
    tracks_to_remove ts = [] := by
  induction ts with
  | nil => rfl
  | cons t ts ih =>
    rw [tracks_to_remove, List.flatMap_cons]
    rw [inner_flatMap_eq_nil _ _ (h t (List.mem_cons_self _ _)), List.nil_append]
    exact ih fun x hx => h x (List.mem_cons_of_mem _ hx)

/-! ### Claim theorems -/

/-- Claim C2: for every input of the form
`https://open.spotify.com/playlist/<id>` and every input of the form
`spotify:playlist:<id>` (with `<id>` a non-empty alphanumeric
identifier, the content of the capture group), `extract_playlist_id`
returns exactly `<id>`. -/
theorem claim_C2_extract_url_and_uri (cap : List Char) (hne : cap ≠ [])
    (hal : ∀ c ∈ cap, isAlnumChar c = true) :
    extract_playlist_id (url_pattern ++ cap) = cap ∧
    extract_playlist_id (uri_pattern ++ cap) = cap :=
  ⟨extract_on_url hne hal, extract_on_uri hne hal⟩

theorem claim_C2_witness :
    extract_playlist_id "https://open.spotify.com/playlist/37i9dQZF1DXcBWIGoYBM5M".toList
      = "37i9dQZF1DXcBWIGoYBM5M".toList ∧
    extract_playlist_id "spotify:playlist:37i9dQZF1DXcBWIGoYBM5M".toList
      = "37i9dQZF1DXcBWIGoYBM5M".toList := by
  have h := claim_C2_extract_url_and_uri ("37i9dQZF1DXcBWIGoYBM5M".toList)
    (by decide) (by decide)
  have e1 : "https://open.spotify.com/playlist/37i9dQZF1DXcBWIGoYBM5M".toList
      = url_pattern ++ "37i9dQZF1DXcBWIGoYBM5M".toList := by decide
  have e2 : "spotify:playlist:37i9dQZF1DXcBWIGoYBM5M".toList
      = uri_pattern ++ "37i9dQZF1DXcBWIGoYBM5M".toList := by decide
  exact ⟨by rw [e1]; exact h.1, by rw [e2]; exact h.2⟩

/-- Claim C3: for every input string matched by neither the web-URL
pattern nor the URI pattern, `extract_playlist_id` returns the input
unchanged. -/
theorem claim_C3_extract_passthrough (s : List Char)
    (h1 : search url_pattern s = none) (h2 : search uri_pattern s = none) :
    extract_playlist_id s = s := by
  simp [extract_playlist_id, h1, h2]

theorem claim_C3_witness :
    search url_pattern "rawid123".toList = none ∧
    search uri_pattern "rawid123".toList = none ∧
    extract_playlist_id "rawid123".toList = "rawid123".toList :=
  ⟨by decide, by decide, claim_C3_extract_passthrough _ (by decide) (by decide)⟩

/-- Claim C4: the patterns are tried in a fixed order with first match
winning — on an input where both the web-URL pattern and the URI pattern
match (somewhere in the string), `extract_playlist_id` returns the
identifier captured by the web-URL pattern. -/
theorem claim_C4_url_wins (s a b : List Char)
    (h1 : search url_pattern s = some a) ( _h2 : search uri_pattern s = some b) :
    extract_playlist_id s = a := by
  simp [extract_playlist_id, h1]

theorem claim_C4_witness :
    search url_pattern
      "https://open.spotify.com/playlist/abc spotify:playlist:def".toList
      = some "abc".toList ∧
    search uri_pattern
      "https://open.spotify.com/playlist/abc spotify:playlist:def".toList
      = some "def".toList ∧
    extract_playlist_id
      "https://open.spotify.com/playlist/abc spotify:playlist:def".toList
      = "abc".toList :=
  ⟨by decide, by decide,
    claim_C4_url_wins _ "abc".toList "def".toList (by decide) (by decide)⟩

/-- Claim C7: `extract_playlist_id` is pure, deterministic and total:
every input produces a result, and equal inputs produce equal results. -/
theorem claim_C7_extract_total_deterministic (s t : List Char) (h : s = t) :
    ∃ r : List Char, extract_playlist_id s = r ∧ extract_playlist_id t = r :=
  ⟨extract_playlist_id s, rfl, by rw [h]⟩

theorem claim_C7_witness :
    ∃ r : List Char, extract_playlist_id "anyInput9".toList = r ∧
      extract_playlist_id "anyInput9".toList = r :=
  claim_C7_extract_total_deterministic _ _ rfl

lemma remove_payloads (tok pin : Option (List Char))
    (tr : TracksResponse) (dr : DeleteResponse) :
    (remove_artist_tracks tok pin tr dr).2 = [] ∨
    (remove_artist_tracks tok pin tr dr).2 = [tracks_to_remove tr.items] := by
  rw [remove_artist_tracks]
  by_cases hf : (falsy tok || falsy pin) = true
  · rw [if_pos hf]
    exact Or.inl rfl
  · rw [if_neg hf]
    by_cases hid : (extract_playlist_id (pin.getD [])).isEmpty = true
    · rw [if_pos hid]
      exact Or.inl rfl
    · rw [if_neg hid]
      by_cases hst : tr.status_code ≠ 200
      · rw [if_pos hst]
        exact Or.inl rfl
      · rw [if_neg hst]
        by_cases hemp : (tracks_to_remove tr.items).isEmpty = true
        · rw [if_pos hemp]
          exact Or.inl rfl
        · rw [if_neg hemp]
          by_cases hds : dr.status_code = 200
          · rw [if_pos hds]
            exact Or.inr rfl
          · rw [if_neg hds]
            exact Or.inr rfl

lemma callback_error_ne_of_head {x y : List Char} (h : x.head? ≠ y.head?) :
    Page.callback_error x ≠ Page.callback_error y := by
  intro he
  injection he with h2
  exact h (by rw [h2])

/-- Claim C9 (implicit): every non-empty input yields a non-empty
(truthy) result from `extract_playlist_id`, so in the handler the
"Invalid playlist URL or URI." error branch is unreachable: no run of
`remove_artist_tracks` renders that error. -/
theorem claim_C9_no_invalid_branch :
    (∀ s : List Char, s ≠ [] → extract_playlist_id s ≠ []) ∧
    (∀ (tok pin : Option (List Char)) (tr : TracksResponse) (dr : DeleteResponse),
      (remove_artist_tracks tok pin tr dr).1 ≠
        Page.callback_error "Invalid playlist URL or URI.".toList) := by
  constructor
  · exact fun s h => extract_ne_nil h
  · intro tok pin tr dr
    rw [remove_artist_tracks]
    by_cases hf : (falsy tok || falsy pin) = true
    · rw [if_pos hf]
      decide
    · rw [if_neg hf]
      have hpin : ¬ falsy pin = true := fun h => hf (by simp [h])
      cases pin with
      | none => exact absurd rfl hpin
      | some s =>
        have hs : s ≠ [] := fun h0 => hpin (by simp [falsy, h0])
        have hex : ¬ ((extract_playlist_id ((some s).getD [])).isEmpty = true) := by
          simpa [List.isEmpty_iff] using extract_ne_nil hs
        rw [if_neg hex]
        by_cases hst : tr.status_code ≠ 200
        · rw [if_pos hst]
          show Page.callback_error _ ≠ _
          apply callback_error_ne_of_head
          rw [head?_append_left ("Failed to retrieve playlist tracks: ".toList)
            tr.text (by decide)]
          decide
        · rw [if_neg hst]
          by_cases hemp : (tracks_to_remove tr.items).isEmpty = true
          · rw [if_pos hemp]
            simp
          · rw [if_neg hemp]
            by_cases hds : dr.status_code = 200
            · rw [if_pos hds]
              simp
            · rw [if_neg hds]
              show Page.callback_error _ ≠ _
              apply callback_error_ne_of_head
              rw [head?_append_left ("Failed to remove tracks: ".toList)
                dr.text (by decide)]
              decide

theorem claim_C9_witness :
    extract_playlist_id "p".toList ≠ [] ∧
    (remove_artist_tracks (some "t".toList) (some "p".toList)
        ⟨200, [], []⟩ ⟨200, []⟩).1 ≠
      Page.callback_error "Invalid playlist URL or URI.".toList :=
  ⟨claim_C9_no_invalid_branch.1 _ (by decide),
   claim_C9_no_invalid_branch.2 _ _ _ _⟩

/-- Claim C5 counterexample: on a playlist-tracks response with no
matching track the handler renders the message "No tracks to remove."
(with a period), which is not the string "No tracks to remove!" the
claim states. -/
theorem claim_C5_counterexample :
    remove_artist_tracks (some "tok".toList) (some "pl".toList)
        ⟨200, [⟨⟨[⟨"someOtherArtist".toList⟩], "uriA".toList⟩⟩], []⟩ ⟨200, []⟩
      = (Page.remove_tracks_msg "No tracks to remove.".toList, []) ∧
    Page.remove_tracks_msg "No tracks to remove.".toList ≠
      Page.remove_tracks_msg "No tracks to remove!".toList := by
  decide

/-- Claim C5 (amended): when no track of the playlist-tracks response is
credited to the target artist, the handler issues zero DELETE calls and
renders the success page `remove_tracks.html` with the message
"No tracks to remove." (a success outcome, not an error page). -/
theorem claim_C5_no_tracks (tok pin : Option (List Char))
    (tr : TracksResponse) (dr : DeleteResponse)
    (htok : falsy tok = false) (hpin : falsy pin = false)
    (hst : tr.status_code = 200)
    (hmatch : ∀ t ∈ tr.items, ∀ a ∈ t.track.artists, ¬ (a.id = kanye_id)) :
    remove_artist_tracks tok pin tr dr
      = (Page.remove_tracks_msg "No tracks to remove.".toList, []) := by
  rw [remove_artist_tracks, if_neg (by simp [htok, hpin])]
  cases pin with
  | none => simp [falsy] at hpin
  | some s =>
    have hs : s ≠ [] := by
      intro h0
      simp [falsy, h0] at hpin
    rw [if_neg (by simpa [List.isEmpty_iff] using extract_ne_nil hs)]
    rw [if_neg (by simp [hst])]
    rw [if_pos (by simp [tracks_to_remove_eq_nil tr.items hmatch])]

theorem claim_C5_witness :
    remove_artist_tracks (some "tok".toList) (some "pl".toList)
        ⟨200, [⟨⟨[⟨"abc".toList⟩], "uriA".toList⟩⟩], []⟩ ⟨500, "boom".toList⟩
      = (Page.remove_tracks_msg "No tracks to remove.".toList, []) :=
  claim_C5_no_tracks _ _ _ _ (by decide) (by decide) rfl (by decide)

/-- Claim C1 counterexample: a response with a single track (N = 1) that
credits the target artist twice yields a delete payload in which that
track's URI appears twice — the code performs no deduplication, so the
payload does not contain exactly N distinct URIs. -/
theorem claim_C1_counterexample :
    (remove_artist_tracks (some "tok".toList) (some "pl".toList)
        ⟨200, [⟨⟨[⟨kanye_id⟩, ⟨kanye_id⟩], "uriA".toList⟩⟩], []⟩ ⟨200, []⟩).2
      = [[⟨"uriA".toList⟩, ⟨"uriA".toList⟩]] ∧
    ((remove_artist_tracks (some "tok".toList) (some "pl".toList)
        ⟨200, [⟨⟨[⟨kanye_id⟩, ⟨kanye_id⟩], "uriA".toList⟩⟩], []⟩ ⟨200, []⟩).2.map
        List.length) ≠ [1] := by
  decide

/-- Claim C1 (amended): for every playlist-tracks response the handler
issues at most one DELETE call, and the payload of any call it does
issue lists, for each returned track in order, exactly k copies of that
track's URI, where k is the number of artist credits of the target on
that track (no deduplication).  In particular, when every track credits
the target artist at most once, the payload is exactly the URIs of the
matching tracks, in order — one entry per matching track. -/
theorem claim_C1_single_delete (tok pin : Option (List Char))
    (tr : TracksResponse) (dr : DeleteResponse) :
    (remove_artist_tracks tok pin tr dr).2.length ≤ 1 ∧
    (∀ p ∈ (remove_artist_tracks tok pin tr dr).2,
      p = tr.items.flatMap fun t =>
        List.replicate
          ((t.track.artists.filter fun a => decide (a.id = kanye_id)).length)
          ⟨t.track.uri⟩) ∧
    ((∀ t ∈ tr.items,
        (t.track.artists.filter fun a => decide (a.id = kanye_id)).length ≤ 1) →
      ∀ p ∈ (remove_artist_tracks tok pin tr dr).2,
        p = (tr.items.filter track_matches).map fun t => ⟨t.track.uri⟩) := by
  rcases remove_payloads tok pin tr dr with h | h <;> rw [h]
  · exact ⟨by simp, by simp, fun _ => by simp⟩
  · refine ⟨by simp, ?_, ?_⟩
    · intro p hp
      rw [List.mem_singleton] at hp
      rw [hp, tracks_to_remove_eq_replicate]
    · intro hone p hp
      rw [List.mem_singleton] at hp
      rw [hp, tracks_to_remove_eq_filter_map tr.items hone]

theorem claim_C1_witness :
    (remove_artist_tracks (some "tok".toList) (some "pl".toList)
        ⟨200, [⟨⟨[⟨kanye_id⟩, ⟨kanye_id⟩], "uriA".toList⟩⟩], []⟩ ⟨200, []⟩).2.length ≤ 1 ∧
    ([⟨"uriA".toList⟩, ⟨"uriA".toList⟩] : List RemoveEntry) =
      [(⟨⟨[⟨kanye_id⟩, ⟨kanye_id⟩], "uriA".toList⟩⟩ : TrackItem)].flatMap fun t =>
        List.replicate
          ((t.track.artists.filter fun a => decide (a.id = kanye_id)).length)
          ⟨t.track.uri⟩ := by
  have h := claim_C1_single_delete (some "tok".toList) (some "pl".toList)
    ⟨200, [⟨⟨[⟨kanye_id⟩, ⟨kanye_id⟩], "uriA".toList⟩⟩], []⟩ ⟨200, []⟩
  exact ⟨h.1, h.2.1 _ (by decide)⟩

/-- Claim C6: when the token endpoint answers with a non-200 status (and
the callback request carries a `code` and no `error`), the callback
handler renders an error page whose message contains the response body
verbatim (as a suffix of the message), and it does not redirect. -/
theorem claim_C6_token_error_surfaced (args : CallbackArgs) (resp : TokenResponse)
    (he : args.error = none) (hc : args.code.isSome = true)
    (hst : resp.status_code ≠ 200) :
    callback args resp =
      some (.rendered ("Failed to retrieve access token: ".toList ++ resp.text)) ∧
    List.IsSuffix resp.text
      ("Failed to retrieve access token: ".toList ++ resp.text) ∧
    ∀ t, callback args resp ≠ some (.redirected t) := by
  obtain ⟨err, code⟩ := args
  simp only at he hc
  cases he
  obtain ⟨c, hcc⟩ := Option.isSome_iff_exists.mp hc
  cases hcc
  have hcb : callback ⟨none, some c⟩ resp =
      if resp.status_code = 200 then some (.redirected resp.access_token)
      else some (.rendered
        ("Failed to retrieve access token: ".toList ++ resp.text)) := rfl
  rw [hcb, if_neg hst]
  refine ⟨rfl, ⟨"Failed to retrieve access token: ".toList, rfl⟩, ?_⟩
  intro t h
  simp at h

theorem claim_C6_witness :
    callback ⟨none, some "authcode".toList⟩
        ⟨400, [], [], "token failure body".toList⟩ =
      some (.rendered
        ("Failed to retrieve access token: ".toList ++ "token failure body".toList)) :=
  (claim_C6_token_error_surfaced ⟨none, some "authcode".toList⟩
    ⟨400, [], [], "token failure body".toList⟩ rfl rfl (by decide)).1

/-- Claim C8: the startup environment check fails fast — whenever the
client identifier or the client secret is absent from the environment,
module initialization raises (returns the `ValueError` message) instead
of producing a configuration. -/
theorem claim_C8_startup_fails_fast (client_id client_secret : Option (List Char))
    (h : client_id = none ∨ client_secret = none) :
    startup_config client_id client_secret =
      .error "Client ID or Client Secret not found in environment variables.".toList := by
  rcases h with rfl | rfl
  · rw [startup_config, if_pos (by simp [falsy])]
  · rw [startup_config, if_pos (by simp [falsy])]

theorem claim_C8_witness :
    startup_config none (some "secret123".toList) =
      .error "Client ID or Client Secret not found in environment variables.".toList :=
  claim_C8_startup_fails_fast _ _ (Or.inl rfl)

/-- Claim C10 (implicit): when the callback query carries neither an
`error` field nor a `code` field, the handler produces no response at
all — the Python function falls through and returns `None`. -/
theorem claim_C10_callback_none (args : CallbackArgs) (resp : TokenResponse)
    (he : args.error = none) (hc : args.code = none) :
    callback args resp = none := by
  obtain ⟨err, code⟩ := args
  simp only at he hc
  cases he
  cases hc
  rfl

theorem claim_C10_witness :
    callback ⟨none, none⟩ ⟨200, [], [], []⟩ = none :=
  claim_C10_callback_none _ _ rfl rfl

